import Mathlib

/-!
Verification of the constraint-collection subsystem of `enaml/widgets/container.py`:
the `Container`, `VContainer` and `HContainer` widget classes, their
`layout_constraints` methods, child-event handlers, observers and content-area
anchor members. Pure structure and list manipulation from the source file is
embedded directly; collaborators that live outside the file (the `vbox`/`hbox`
builder expansion, the atom framework's observer dispatch and `Range` validation,
and the superclass event handlers) are modelled from the specification and are
marked as such in their doc comments.
-/

/-- The hugging policy of a widget along one axis, per the specification's
per-axis preference set. -/
inductive HugPolicy
  | strong_fit
  | can_expand
  | ignore
deriving DecidableEq, Repr

/-- A child element of a container. `is_constraints_widget` records whether the
object is an instance of `ConstraintsWidget` (a constraint-participating
widget); `uid` distinguishes children. -/
structure Child where
  uid : Nat
  is_constraints_widget : Bool
deriving DecidableEq, Repr

/-- A spacer object (`enaml.layout.layout_helpers.Spacer`), kept opaque. -/
structure Spacer where
  uid : Nat
deriving DecidableEq, Repr

/-- An element passed to the `vbox`/`hbox` builder helpers: either a widget or
a spacer. -/
inductive Item
  | widget (c : Child)
  | spacer (s : Spacer)
deriving DecidableEq, Repr

/-- The padding box, four offsets in the order used by
`enaml.layout.geometry.Box`. -/
structure Box where
  top : Int
  right : Int
  bottom : Int
  left : Int
deriving DecidableEq, Repr

/-- An entry of the list returned by `layout_constraints`: either one of the
user's explicit constraint objects (opaque, identified by `uid`) or an
unexpanded `vbox`/`hbox` helper object carrying its item sequence and its
spacing argument (`none` when the call site passes no spacing). -/
inductive CnsEntry
  | user (uid : Nat)
  | vbox (items : List Item) (spacing : Option Int)
  | hbox (items : List Item) (spacing : Option Int)
deriving DecidableEq, Repr

/-- Whether a `CnsEntry` is one of the user's explicit constraint objects. -/
def CnsEntry.isUser : CnsEntry → Bool
  | .user _ => true
  | _ => false

/-- The `Container` declaration: the state visible in `container.py`.
`constraints` is the explicit user constraint list inherited from
`ConstraintsWidget`, `children` the ordered child list, and the remaining
fields mirror the members declared in the source, with the source's declared
defaults (`padding = (10, 10, 10, 10)`, `share_layout = False`,
`hug_width = hug_height = 'ignore'`). -/
structure Container where
  constraints : List Nat := []
  children : List Child := []
  padding : Box := ⟨10, 10, 10, 10⟩
  share_layout : Bool := false
  hug_width : HugPolicy := .ignore
  hug_height : HugPolicy := .ignore
deriving DecidableEq, Repr

/-- A `Container` left at all its declared defaults. -/
def Container.mkDefault : Container := {}

/-- `Container.widgets`: the child `ConstraintsWidget`s defined on the
container, i.e. the child list filtered to constraint-participating
elements. -/
def Container.widgets (c : Container) : List Child :=
  c.children.filter fun ch => ch.is_constraints_widget

/-- `Container.layout_constraints`: copy the explicit constraint list; if the
copy is empty, append `vbox(*self.widgets())` (no spacing argument); return
the list. -/
def Container.layout_constraints (c : Container) : List CnsEntry :=
  let cns := c.constraints.map CnsEntry.user
  if cns.isEmpty then cns ++ [CnsEntry.vbox (c.widgets.map Item.widget) none] else cns

/-- `VContainer`: a `Container` with a `spacing` member (`Range(low=0,
value=10)`) and optional top and bottom spacers. -/
structure VContainer extends Container where
  spacing : Int := 10
  top_spacer : Option Spacer := none
  bottom_spacer : Option Spacer := none
deriving DecidableEq, Repr

/-- `VContainer.layout_constraints`: build the item list (optional top spacer,
then the widgets, then the optional bottom spacer), copy the explicit
constraint list, and unconditionally append `vbox(*items, spacing=self.spacing)`. -/
def VContainer.layout_constraints (v : VContainer) : List CnsEntry :=
  let items :=
    (match v.top_spacer with | some s => [Item.spacer s] | none => []) ++
    v.toContainer.widgets.map Item.widget ++
    (match v.bottom_spacer with | some s => [Item.spacer s] | none => [])
  v.toContainer.constraints.map CnsEntry.user ++ [CnsEntry.vbox items (some v.spacing)]

/-- `HContainer`: a `Container` with a `spacing` member (`Range(low=0,
value=10)`) and optional left and right spacers. -/
structure HContainer extends Container where
  spacing : Int := 10
  left_spacer : Option Spacer := none
  right_spacer : Option Spacer := none
deriving DecidableEq, Repr

/-- `HContainer.layout_constraints`: build the item list (optional left spacer,
then the widgets, then the optional right spacer), copy the explicit
constraint list, and unconditionally append `hbox(*items, spacing=self.spacing)`. -/
def HContainer.layout_constraints (h : HContainer) : List CnsEntry :=
  let items :=
    (match h.left_spacer with | some s => [Item.spacer s] | none => []) ++
    h.toContainer.widgets.map Item.widget ++
    (match h.right_spacer with | some s => [Item.spacer s] | none => [])
  h.toContainer.constraints.map CnsEntry.user ++ [CnsEntry.hbox items (some h.spacing)]

/-- C1: for every `Container`, `layout_constraints` returns exactly the
explicit user constraint list when it is non-empty, and otherwise returns the
single-element list holding the `vbox` helper over `widgets()`; the output is
never a mixture of user constraints and builder output. -/
theorem container_layout_constraints_exclusive (c : Container) :
    c.layout_constraints =
      (if c.constraints = [] then [CnsEntry.vbox (c.widgets.map Item.widget) none]
       else c.constraints.map CnsEntry.user) ∧
    (c.layout_constraints.all CnsEntry.isUser ||
      c.layout_constraints.all (fun e => !e.isUser)) = true := by
  unfold Container.layout_constraints
  cases hc : c.constraints with
  | nil => simp [CnsEntry.isUser]
  | cons a tl =>
    refine ⟨by simp, ?_⟩
    simp only [List.map_cons, List.isEmpty_cons, Bool.false_eq_true, if_false,
      Bool.or_eq_true, List.all_eq_true]
    left
    intro e he
    rw [← List.map_cons] at he
    rcases List.mem_map.mp he with ⟨u, _, rfl⟩
    rfl

/-- A `VContainer` with a non-empty explicit constraint list and no children. -/
def vcEx : VContainer := { constraints := [0] }

/-- An `HContainer` with a non-empty explicit constraint list and no children. -/
def hcEx : HContainer := { constraints := [0] }

/-- C2 (counterexample): a `VContainer` (resp. `HContainer`) with the
non-empty explicit constraint list `[0]` still produces the builder helper in
its `layout_constraints` output, so builder output is not merely a fallback
used when no explicit constraints are supplied. -/
theorem vhcontainer_builder_not_fallback_cex :
    vcEx.toContainer.constraints = [0] ∧
    vcEx.layout_constraints = [CnsEntry.user 0, CnsEntry.vbox [] (some 10)] ∧
    hcEx.toContainer.constraints = [0] ∧
    hcEx.layout_constraints = [CnsEntry.user 0, CnsEntry.hbox [] (some 10)] :=
  ⟨rfl, rfl, rfl, rfl⟩

/-- C2 (amended): for every `VContainer` and `HContainer`,
`layout_constraints` unconditionally appends exactly one builder helper entry
after the (copied) explicit constraint list: the leading entries are exactly
the explicit user constraints in order, and the final entry is always the
non-user builder helper, whether or not the explicit list is empty. -/
theorem vhcontainer_layout_constraints_appends_builder
    (v : VContainer) (h : HContainer) :
    v.layout_constraints.dropLast = v.toContainer.constraints.map CnsEntry.user ∧
    v.layout_constraints.getLast?.map CnsEntry.isUser = some false ∧
    h.layout_constraints.dropLast = h.toContainer.constraints.map CnsEntry.user ∧
    h.layout_constraints.getLast?.map CnsEntry.isUser = some false := by
  refine ⟨?_, ?_, ?_, ?_⟩ <;>
    simp [VContainer.layout_constraints, HContainer.layout_constraints,
      List.dropLast_concat, List.getLast?_concat, CnsEntry.isUser]

/-- C8: `widgets()` is exactly the subsequence of the ordered child list
consisting of the constraint-participating children: it is a sublist of
`children` (hence in declaration order), every element of it participates,
and each child occurs in it with its full multiplicity when it participates
and not at all otherwise. -/
theorem container_widgets_exact_subsequence (c : Container) (w : Child) :
    c.widgets.Sublist c.children ∧
    (c.widgets.all fun x => x.is_constraints_widget) = true ∧
    c.widgets.count w =
      (if w.is_constraints_widget then c.children.count w else 0) := by
  refine ⟨List.filter_sublist _, ?_, ?_⟩
  · rw [List.all_eq_true]
    intro x hx
    exact (List.mem_filter.mp hx).2
  · by_cases hw : w.is_constraints_widget
    · rw [if_pos hw]
      exact List.count_filter hw
    · rw [if_neg hw]
      refine List.count_eq_zero.mpr fun hmem => ?_
      exact hw ((List.mem_filter.mp hmem).2)

/-- C10: a default `Container` hugs neither width nor height: both hug
policies default to `ignore`. -/
theorem container_hug_defaults_ignore :
    Container.mkDefault.hug_width = HugPolicy.ignore ∧
    Container.mkDefault.hug_height = HugPolicy.ignore :=
  ⟨rfl, rfl⟩

/-- A linear symbolic expression over the four primitive content-area anchor
variables (`contents_left`, `contents_right`, `contents_top`,
`contents_bottom`), with rational coefficients and constant term: the value
space in which the `Constant` members of `Container` are defined (the source
divides by `2.0`). -/
structure LinExpr where
  cleft : ℚ
  cright : ℚ
  ctop : ℚ
  cbottom : ℚ
  konst : ℚ
deriving DecidableEq, Repr

/-- Sum of two symbolic expressions. -/
def LinExpr.add (a b : LinExpr) : LinExpr :=
  ⟨a.cleft + b.cleft, a.cright + b.cright, a.ctop + b.ctop,
    a.cbottom + b.cbottom, a.konst + b.konst⟩

/-- Difference of two symbolic expressions. -/
def LinExpr.sub (a b : LinExpr) : LinExpr :=
  ⟨a.cleft - b.cleft, a.cright - b.cright, a.ctop - b.ctop,
    a.cbottom - b.cbottom, a.konst - b.konst⟩

/-- A symbolic expression divided by two (the source's `/ 2.0`). -/
def LinExpr.half (a : LinExpr) : LinExpr :=
  ⟨a.cleft / 2, a.cright / 2, a.ctop / 2, a.cbottom / 2, a.konst / 2⟩

/-- Value of a symbolic expression at a valuation of the four primitive
anchors. -/
def LinExpr.eval (a : LinExpr) (l r t b : ℚ) : ℚ :=
  a.cleft * l + a.cright * r + a.ctop * t + a.cbottom * b + a.konst

/-- The `contents_left` constraint member: a primitive symbolic variable. -/
def contents_left : LinExpr := ⟨1, 0, 0, 0, 0⟩

/-- The `contents_right` constraint member: a primitive symbolic variable. -/
def contents_right : LinExpr := ⟨0, 1, 0, 0, 0⟩

/-- The `contents_top` constraint member: a primitive symbolic variable. -/
def contents_top : LinExpr := ⟨0, 0, 1, 0, 0⟩

/-- The `contents_bottom` constraint member: a primitive symbolic variable. -/
def contents_bottom : LinExpr := ⟨0, 0, 0, 1, 0⟩

/-- `Container._default_contents_width`:
`self.contents_right - self.contents_left`. -/
def contents_width : LinExpr := contents_right.sub contents_left

/-- `Container._default_contents_height`:
`self.contents_bottom - self.contents_top`. -/
def contents_height : LinExpr := contents_bottom.sub contents_top

/-- `Container._default_contents_v_center`:
`self.contents_top + self.contents_height / 2.0`. -/
def contents_v_center : LinExpr := contents_top.add contents_height.half

/-- `Container._default_contents_h_center`:
`self.contents_left + self.contents_width / 2.0`. -/
def contents_h_center : LinExpr := contents_left.add contents_width.half

/-- C4: under every valuation of the primitive content anchors, the derived
content-area anchors satisfy the definitional equations: width is
right minus left, height is bottom minus top, and the two centers are the
start of the span plus half its extent. -/
theorem container_contents_anchor_equations (l r t b : ℚ) :
    contents_width.eval l r t b =
      contents_right.eval l r t b - contents_left.eval l r t b ∧
    contents_height.eval l r t b =
      contents_bottom.eval l r t b - contents_top.eval l r t b ∧
    contents_v_center.eval l r t b =
      contents_top.eval l r t b + contents_height.eval l r t b / 2 ∧
    contents_h_center.eval l r t b =
      contents_left.eval l r t b + contents_width.eval l r t b / 2 := by
  refine ⟨?_, ?_, ?_, ?_⟩ <;>
    (simp only [LinExpr.eval, contents_width, contents_height, contents_v_center,
      contents_h_center, contents_left, contents_right, contents_top,
      contents_bottom, LinExpr.add, LinExpr.sub, LinExpr.half]
     ring)

/-- The kinds of the 8 definitional anchor constraints a container contributes
(content edges bound to the padded outer box, and the four derived-anchor
definitions). -/
inductive DefAnchorKind
  | left_edge
  | right_edge
  | top_edge
  | bottom_edge
  | width_def
  | height_def
  | v_center_def
  | h_center_def
deriving DecidableEq, Repr

/-- A solve-time constraint, after expansion of the helper objects: an
explicit user constraint, a consecutive-pair primary-axis chain constraint, a
boundary binding of the first or last item to the content-box anchors, a
cross-axis alignment constraint for one item, or one of the 8 definitional
anchor constraints. -/
inductive RawCns
  | userRaw (uid : Nat)
  | chainPair (a b : Item)
  | boundFirst (a : Item)
  | boundLast (a : Item)
  | cross (a : Item)
  | defAnchor (k : DefAnchorKind)
deriving DecidableEq, Repr

/-- Whether a solve-time constraint is a primary-axis chain constraint. -/
def RawCns.isChainPair : RawCns → Bool
  | .chainPair _ _ => true
  | _ => false

/-- Whether a solve-time constraint is a definitional anchor constraint. -/
def RawCns.isDefAnchor : RawCns → Bool
  | .defAnchor _ => true
  | _ => false

/-- Modelled from the spec: the consecutive-pair primary-axis chain
constraints of a builder, one per adjacent pair `(A, B)` of the item
sequence (`B.leading_edge = A.trailing_edge + spacing`). -/
def chain_pairs : List Item → List RawCns
  | a :: b :: rest => RawCns.chainPair a b :: chain_pairs (b :: rest)
  | _ => []

/-- Modelled from the spec: the `vbox`/`hbox` builder expansion
(`enaml.layout.layout_helpers` is not under `src/`): an empty sequence yields
no constraints; otherwise the first item's leading edge and the last item's
trailing edge are bound to the content-box anchors, each adjacent pair gets a
chain constraint, and each item gets a cross-axis alignment constraint. -/
def builder_expand (items : List Item) : List RawCns :=
  match items with
  | [] => []
  | a :: rest =>
      RawCns.boundFirst a :: RawCns.boundLast ((a :: rest).getLastD a) ::
        (chain_pairs (a :: rest) ++ (a :: rest).map RawCns.cross)

/-- The 8 definitional anchor constraints of the content area. -/
def def_anchors : List RawCns :=
  [.defAnchor .left_edge, .defAnchor .right_edge, .defAnchor .top_edge,
   .defAnchor .bottom_edge, .defAnchor .width_def, .defAnchor .height_def,
   .defAnchor .v_center_def, .defAnchor .h_center_def]

/-- Expansion of one `layout_constraints` entry into solve-time constraints:
user constraints stay themselves; helper objects expand through the builder. -/
def expand_entry : CnsEntry → List RawCns
  | .user uid => [RawCns.userRaw uid]
  | .vbox items _ => builder_expand items
  | .hbox items _ => builder_expand items

/-- Modelled from the spec: the full constraint set a container contributes to
a solve (`activeConstraints()` after expansion): the definitional anchor
constraints, included in every contributed set, plus the expansion of every
entry returned by `layout_constraints` (the aggregation step lives outside
`src/`). -/
def active_constraints_expanded (c : Container) : List RawCns :=
  def_anchors ++ (c.layout_constraints.map expand_entry).flatten

/-- The chain constraints among the expanded pairs number one fewer than the
items (truncated at zero). -/
theorem chain_pairs_count :
    ∀ l : List Item, (chain_pairs l).countP RawCns.isChainPair = l.length - 1
  | [] => rfl
  | [_] => rfl
  | a :: b :: rest => by
    have ih := chain_pairs_count (b :: rest)
    simp only [chain_pairs, List.countP_cons, List.length_cons] at ih ⊢
    simp only [RawCns.isChainPair, if_pos]
    omega

/-- Cross-axis constraints are never chain constraints. -/
theorem cross_map_no_chain (l : List Item) :
    (l.map RawCns.cross).countP RawCns.isChainPair = 0 := by
  induction l with
  | nil => rfl
  | cons a tl ih => simp [List.countP_cons, RawCns.isChainPair, ih]

/-- The builder emits exactly `items.length - 1` chain constraints. -/
theorem builder_expand_chain_count (items : List Item) :
    (builder_expand items).countP RawCns.isChainPair = items.length - 1 := by
  cases items with
  | nil => rfl
  | cons a rest =>
    simp [builder_expand, List.countP_cons, List.countP_append, RawCns.isChainPair,
      chain_pairs_count, cross_map_no_chain]

/-- Chain-pair expansion emits no definitional anchor constraints. -/
theorem chain_pairs_no_def :
    ∀ l : List Item, (chain_pairs l).countP RawCns.isDefAnchor = 0
  | [] => rfl
  | [_] => rfl
  | a :: b :: rest => by
    have ih := chain_pairs_no_def (b :: rest)
    simp only [chain_pairs, List.countP_cons] at ih ⊢
    simpa [RawCns.isDefAnchor] using ih

/-- The builder emits no definitional anchor constraints. -/
theorem builder_expand_no_def (items : List Item) :
    (builder_expand items).countP RawCns.isDefAnchor = 0 := by
  cases items with
  | nil => rfl
  | cons a rest =>
    have hcross : ((a :: rest).map RawCns.cross).countP RawCns.isDefAnchor = 0 := by
      induction (a :: rest) with
      | nil => rfl
      | cons x xs ih => simp [List.countP_cons, RawCns.isDefAnchor, ih]
    simp [builder_expand, List.countP_cons, List.countP_append, RawCns.isDefAnchor,
      chain_pairs_no_def, hcross]

/-- C3: for every `Container` whose explicit constraint list is empty, the
expanded active constraint set contains exactly `N - 1` primary-axis chain
constraints, where `N` is the number of constraint-participating children
(zero when `N ≤ 1`), plus exactly the 8 definitional anchor constraints. -/
theorem container_default_constraint_counts
    (c : Container) (h : c.constraints = []) :
    (active_constraints_expanded c).countP RawCns.isChainPair =
      c.widgets.length - 1 ∧
    (active_constraints_expanded c).countP RawCns.isDefAnchor = 8 := by
  have hl : c.layout_constraints =
      [CnsEntry.vbox (c.widgets.map Item.widget) none] := by
    simp [Container.layout_constraints, h]
  constructor
  · simp [active_constraints_expanded, hl, expand_entry, List.countP_append,
      builder_expand_chain_count, def_anchors, RawCns.isChainPair]
  · simp [active_constraints_expanded, hl, expand_entry, List.countP_append,
      builder_expand_no_def, def_anchors, RawCns.isDefAnchor, List.countP_cons]

/-- A container with an empty explicit constraint list and four children, of
which three participate in constraints. -/
def c3Ex : Container :=
  { children := [⟨0, true⟩, ⟨1, false⟩, ⟨2, true⟩, ⟨3, true⟩] }

/-- Witness for C3 at a concrete container: three participating children give
two chain constraints and the 8 definitional anchor constraints. -/
theorem container_default_constraint_counts_witness :
    c3Ex.constraints = [] ∧
    (active_constraints_expanded c3Ex).countP RawCns.isChainPair = 2 ∧
    (active_constraints_expanded c3Ex).countP RawCns.isDefAnchor = 8 := by
  refine ⟨rfl, ?_⟩
  have h := container_default_constraint_counts c3Ex rfl
  simpa [c3Ex, Container.widgets] using h

/-- A heap of Python list objects: a reference is an index into `store`.
`constraints_ref` is the reference the container holds to its stored explicit
constraint list, and `children` its ordered child list. -/
structure PyHeapState where
  store : List (List CnsEntry)
  constraints_ref : Nat
  children : List Child
deriving DecidableEq, Repr

/-- Operational model of `Container.layout_constraints` at the level of list
objects: `cns = self.constraints[:]` allocates a fresh copy of the stored
explicit list, `cns.append(vbox(...))` (taken only when the copy is empty)
mutates only that fresh copy, and the method returns a reference to it. The
heap grows by the one fresh list; no already-allocated list is written. -/
def layout_constraints_op (s : PyHeapState) : PyHeapState × Nat :=
  let stored := s.store.getD s.constraints_ref []
  let cns :=
    if stored.isEmpty then
      stored ++
        [CnsEntry.vbox
          ((s.children.filter fun ch => ch.is_constraints_widget).map Item.widget) none]
    else stored
  (⟨s.store ++ [cns], s.constraints_ref, s.children⟩, s.store.length)

/-- Reading an appended-to heap below the old length sees the old entries. -/
theorem getD_append_lt {α : Type} (l l' : List α) (d : α) (i : Nat)
    (h : i < l.length) : (l ++ l').getD i d = l.getD i d := by
  simp [List.getD_eq_getElem?_getD, List.getElem?_append_left h]

/-- Reading an extended heap at the old length sees the fresh entry. -/
theorem getD_append_length {α : Type} (l : List α) (x d : α) :
    (l ++ [x]).getD l.length d = x := by
  simp [List.getD_eq_getElem?_getD, List.getElem?_concat_length]

/-- C5: `layout_constraints` mutates no container state — the stored explicit
constraint list (and every other allocated list) is identical before and
after the call, the container's fields are unchanged — the returned reference
is fresh (in particular not aliased to the stored list), and a second call on
the resulting state returns a list equal to the first call's result. -/
theorem layout_constraints_pure_and_fresh
    (s : PyHeapState) (h : s.constraints_ref < s.store.length) :
    (layout_constraints_op s).1.constraints_ref = s.constraints_ref ∧
    (layout_constraints_op s).1.children = s.children ∧
    (∀ i, i < s.store.length →
      (layout_constraints_op s).1.store.getD i [] = s.store.getD i []) ∧
    (layout_constraints_op s).2 ≠ s.constraints_ref ∧
    (layout_constraints_op (layout_constraints_op s).1).1.store.getD
        (layout_constraints_op (layout_constraints_op s).1).2 [] =
      (layout_constraints_op s).1.store.getD (layout_constraints_op s).2 [] := by
  refine ⟨rfl, rfl, ?_, ?_, ?_⟩
  · intro i hi
    exact getD_append_lt _ _ _ _ hi
  · exact fun he => absurd he.symm (Nat.ne_of_lt h)
  · show (((s.store ++ [_]) ++ [_]).getD (s.store ++ [_]).length []) =
      ((s.store ++ [_]).getD s.store.length [])
    rw [getD_append_length, getD_append_length]
    have hread : (s.store ++
        [if (s.store.getD s.constraints_ref []).isEmpty then
            s.store.getD s.constraints_ref [] ++
              [CnsEntry.vbox
                ((s.children.filter fun ch => ch.is_constraints_widget).map Item.widget) none]
          else s.store.getD s.constraints_ref []]).getD s.constraints_ref [] =
        s.store.getD s.constraints_ref [] :=
      getD_append_lt _ _ _ _ h
    simp only [layout_constraints_op, hread]

/-- A concrete heap state: one allocated list (the container's stored explicit
constraint list, holding one user constraint) and no children. -/
def heapEx : PyHeapState := ⟨[[CnsEntry.user 7]], 0, []⟩

/-- Witness for C5 at `heapEx`: the call leaves the stored list untouched,
returns a fresh reference, and repeats identically. -/
theorem layout_constraints_pure_and_fresh_witness :
    heapEx.constraints_ref < heapEx.store.length ∧
    ((layout_constraints_op heapEx).1.constraints_ref = heapEx.constraints_ref ∧
     (layout_constraints_op heapEx).1.children = heapEx.children ∧
     (∀ i, i < heapEx.store.length →
       (layout_constraints_op heapEx).1.store.getD i [] = heapEx.store.getD i []) ∧
     (layout_constraints_op heapEx).2 ≠ heapEx.constraints_ref ∧
     (layout_constraints_op (layout_constraints_op heapEx).1).1.store.getD
         (layout_constraints_op (layout_constraints_op heapEx).1).2 [] =
       (layout_constraints_op heapEx).1.store.getD
         (layout_constraints_op heapEx).2 []) :=
  ⟨by decide, layout_constraints_pure_and_fresh heapEx (by decide)⟩

/-- The two member names named by the `@observe` decorator in the source. -/
inductive MemberName
  | padding_member
  | share_layout_member
deriving DecidableEq, Repr

/-- The observer registry declared in the source:
`@observe(('share_layout', 'padding'))` on `Container._layout_invalidated`. -/
def observed_members : List MemberName :=
  [.share_layout_member, .padding_member]

/-- The per-container layout state of the invalidation protocol. -/
inductive LayoutMark
  | clean
  | dirty
deriving DecidableEq, Repr

/-- A container as seen by the observer subsystem: the two observed members
and the layout mark. -/
structure ObservedContainer where
  padding : Box
  share_layout : Bool
  mark : LayoutMark
deriving DecidableEq, Repr

/-- Modelled from the spec: the superclass `_layout_invalidated` handler
(`constraints_widget.py` is not under `src/`): it requests a relayout,
marking the container dirty. -/
def layout_invalidated (s : ObservedContainer) : ObservedContainer :=
  ⟨s.padding, s.share_layout, .dirty⟩

/-- Modelled from the spec: atom observer dispatch — when a member's value
changes, every handler registered for that member name fires. -/
def fire_observers (m : MemberName) (s : ObservedContainer) : ObservedContainer :=
  if m ∈ observed_members then layout_invalidated s else s

/-- Modelled from the spec: assignment to the `padding` member; atom notifies
observers only when the stored value actually changes. -/
def set_padding (s : ObservedContainer) (b : Box) : ObservedContainer :=
  if b = s.padding then s
  else fire_observers .padding_member ⟨b, s.share_layout, s.mark⟩

/-- Modelled from the spec: assignment to the `share_layout` member; atom
notifies observers only when the stored value actually changes. -/
def set_share_layout (s : ObservedContainer) (v : Bool) : ObservedContainer :=
  if v = s.share_layout then s
  else fire_observers .share_layout_member ⟨s.padding, v, s.mark⟩

/-- C6: every change of `padding` or of `share_layout` marks the container
dirty through the invalidation handler: after an assignment the mark is
`dirty` unless the assigned value equals the stored one (in which case the
state is untouched), so no change of either member leaves the layout clean. -/
theorem container_padding_share_layout_invalidate
    (s : ObservedContainer) (b : Box) (v : Bool) :
    (set_padding s b).mark = (if b = s.padding then s.mark else .dirty) ∧
    (set_share_layout s v).mark = (if v = s.share_layout then s.mark else .dirty) := by
  constructor
  · by_cases hb : b = s.padding <;>
      simp [set_padding, hb, fire_observers, observed_members, layout_invalidated]
  · by_cases hv : v = s.share_layout <;>
      simp [set_share_layout, hv, fire_observers, observed_members, layout_invalidated]

/-- A container as seen by the child-event subsystem: the ordered child list
and a count of relayout requests issued so far. -/
structure EventState where
  children : List Child
  relayout_requests : Nat
deriving DecidableEq, Repr

/-- `request_relayout`: record one relayout request on the container. -/
def request_relayout (s : EventState) : EventState :=
  ⟨s.children, s.relayout_requests + 1⟩

/-- Modelled from the spec: the superclass `child_added` handler
(`constraints_widget.py` is not under `src/`): it maintains the ordered child
list and requests no relayout itself. -/
def super_child_added (s : EventState) (ch : Child) : EventState :=
  ⟨s.children ++ [ch], s.relayout_requests⟩

/-- `Container.child_added`: call the superclass handler, then request a
relayout exactly when the added child is a `ConstraintsWidget`. The handler
returns only the updated state (no value). -/
def child_added (s : EventState) (ch : Child) : EventState :=
  let s1 := super_child_added s ch
  if ch.is_constraints_widget then request_relayout s1 else s1

/-- Modelled from the spec: the superclass `child_removed` handler
(`constraints_widget.py` is not under `src/`): it removes the child from the
ordered child list and requests no relayout itself. -/
def super_child_removed (s : EventState) (ch : Child) : EventState :=
  ⟨s.children.erase ch, s.relayout_requests⟩

/-- `Container.child_removed`: call the superclass handler, then request a
relayout exactly when the removed child is a `ConstraintsWidget`. The handler
returns only the updated state (no value). -/
def child_removed (s : EventState) (ch : Child) : EventState :=
  let s1 := super_child_removed s ch
  if ch.is_constraints_widget then request_relayout s1 else s1

/-- C7: adding a child issues exactly one relayout request when the child is a
`ConstraintsWidget` and none otherwise, while appending it to the child list;
removing a child does the same while erasing it from the child list. Both
handlers produce only the updated state. -/
theorem container_child_events_relayout (s : EventState) (ch : Child) :
    (child_added s ch).relayout_requests =
      s.relayout_requests + (if ch.is_constraints_widget then 1 else 0) ∧
    (child_added s ch).children = s.children ++ [ch] ∧
    (child_removed s ch).relayout_requests =
      s.relayout_requests + (if ch.is_constraints_widget then 1 else 0) ∧
    (child_removed s ch).children = s.children.erase ch := by
  by_cases hc : ch.is_constraints_widget <;>
    simp [child_added, child_removed, super_child_added, super_child_removed,
      request_relayout, hc]

/-- A `VContainer` left at all its declared defaults. -/
def VContainer.mkDefault : VContainer := {}

/-- An `HContainer` left at all its declared defaults. -/
def HContainer.mkDefault : HContainer := {}

/-- A configuration error surfaced at the point of assignment. -/
inductive ConfigError
  | negative_spacing
deriving DecidableEq, Repr

/-- Modelled from the spec: the atom `Range(low=0, value=10)` member
validation (atom is an external framework): assigning a negative value raises
a configuration error synchronously at the point of assignment; a
non-negative value is stored unchanged. -/
def validate_spacing (x : Int) : Except ConfigError Int :=
  if x < 0 then .error .negative_spacing else .ok x

/-- The spacing values a `VContainer` or `HContainer` can ever store: the
declared default `10`, and any value that passed validation. -/
inductive SpacingReachable : Int → Prop
  | init : SpacingReachable 10
  | set (x y s : Int) : SpacingReachable s → validate_spacing x = .ok y →
      SpacingReachable y

/-- C9: the spacing member of `VContainer` and `HContainer` defaults to 10,
assigning a negative value errors synchronously at the point of assignment,
and consequently every storable spacing value is non-negative. -/
theorem container_spacing_nonneg :
    VContainer.mkDefault.spacing = 10 ∧
    HContainer.mkDefault.spacing = 10 ∧
    (∀ x : Int, x < 0 → validate_spacing x = .error .negative_spacing) ∧
    (∀ v : Int, SpacingReachable v → 0 ≤ v) := by
  refine ⟨rfl, rfl, ?_, ?_⟩
  · intro x hx
    simp [validate_spacing, hx]
  · intro v hv
    induction hv with
    | init => norm_num
    | set x y s hs hval ih =>
      by_cases hx : x < 0
      · simp [validate_spacing, hx] at hval
      · simp [validate_spacing, hx] at hval
        omega

/-- Witness for C9: assigning `-3` errors, and `5` — reachable by one
successful assignment from the default — is non-negative. -/
theorem container_spacing_nonneg_witness :
    validate_spacing (-3) = .error .negative_spacing ∧ (0 : Int) ≤ 5 :=
  ⟨container_spacing_nonneg.2.2.1 (-3) (by norm_num),
   container_spacing_nonneg.2.2.2 5
     (SpacingReachable.set 5 5 10 SpacingReachable.init rfl)⟩
